import Mathlib

/-!
Shallow embedding of the penguins game client
(`src/SoftwareChallengeClient/api/sc/Plugin2023.py` and
`socha/api/networking/game_client.py`), together with theorems settling
the specification claims about it.

Python integers are modelled as `Int`.  Python `%` on integers agrees with
Lean's `Int.emod` (both return a result with the sign of the divisor), and
Python's `int(...)` applied to a float truncates toward zero, which agrees
with Lean's `Int.tdiv` when the float is an exact half-integer quotient.
Fallible Python code (raising `IndexError`) is embedded in `Except PyError`.
-/

namespace Penguins

/-- Error values: `IndexError` raised by board lookups carries the offending
array coordinates (Plugin2023.py line 387). -/
inductive PyError where
  | indexError (x y : Int) : PyError
deriving DecidableEq, Repr

/-- `Vector` (Plugin2023.py lines 6-18): a pair of integers `(dx, dy)`. -/
structure Vec where
  dx : Int
  dy : Int
deriving DecidableEq, Repr

/-- `Vector.times` (line 27-33): scales both components. -/
def Vec.times (v : Vec) (scalar : Int) : Vec :=
  ⟨v.dx * scalar, v.dy * scalar⟩

/-- `Vector.plus` (line 35-41): componentwise sum. -/
def Vec.plus (v other : Vec) : Vec :=
  ⟨v.dx + other.dx, v.dy + other.dy⟩

/-- `Vector.minus` (line 43-49): componentwise difference. -/
def Vec.minus (v other : Vec) : Vec :=
  ⟨v.dx - other.dx, v.dy - other.dy⟩

/-- `Vector.DIRECTIONS` (lines 59-72): the six hex directions, in source
order: up-right, left, down-right, down-left, right, up-left. -/
def Vec.DIRECTIONS : List Vec :=
  [⟨1, -1⟩, ⟨-2, 0⟩, ⟨1, 1⟩, ⟨-1, 1⟩, ⟨2, 0⟩, ⟨-1, -1⟩]

/-- `Coordinates` (lines 99-113): a position `(x, y)` tagged with the
representation flag `isDouble`. -/
structure Coordinates where
  x : Int
  y : Int
  isDouble : Bool
deriving DecidableEq, Repr

/-- `Vector.toCoordinates` (lines 81-86): always yields `isDouble = True`. -/
def Vec.toCoordinates (v : Vec) : Coordinates :=
  ⟨v.dx, v.dy, true⟩

/-- `Coordinates.getVector` (lines 141-146). -/
def Coordinates.getVector (c : Coordinates) : Vec :=
  ⟨c.x, c.y⟩

/-- `Coordinates.arrayToDoubleHex` (lines 155-160):
`Coordinates(self.x * 2 + (1 if self.y % 2 == 1 else 0), self.y, True)`. -/
def Coordinates.arrayToDoubleHex (c : Coordinates) : Coordinates :=
  ⟨c.x * 2 + (if c.y % 2 = 1 then 1 else 0), c.y, true⟩

/-- `Coordinates.doubleHexToArray` (lines 162-167):
`Coordinates(int(self.x / 2 - (1 if self.y % 2 == 1 else 0)), self.y, False)`.
The Python expression `int(self.x / 2 - offset)` truncates the exact
half-integer value `x/2 - offset = (x - 2*offset)/2` toward zero, which is
`Int.tdiv (x - 2*offset) 2`. -/
def Coordinates.doubleHexToArray (c : Coordinates) : Coordinates :=
  ⟨Int.tdiv (c.x - 2 * (if c.y % 2 = 1 then 1 else 0)) 2, c.y, false⟩

/-- `Coordinates.getArray` (lines 169-174): self if not `isDouble`, else
`doubleHexToArray`. -/
def Coordinates.getArray (c : Coordinates) : Coordinates :=
  if c.isDouble then c.doubleHexToArray else c

/-- `Coordinates.getDoubleHex` (lines 176-181): self if `isDouble`, else
`arrayToDoubleHex`. -/
def Coordinates.getDoubleHex (c : Coordinates) : Coordinates :=
  if c.isDouble then c else c.arrayToDoubleHex

/-- `Coordinates.addVector` (lines 115-123):
`self.getVector().plus(vector).toCoordinates()` when `isDouble`, else
`self.getDoubleHex().getVector().plus(vector).toCoordinates().getArray()`. -/
def Coordinates.addVector (c : Coordinates) (vector : Vec) : Coordinates :=
  if c.isDouble then ((c.getVector.plus vector).toCoordinates)
  else ((c.getDoubleHex.getVector.plus vector).toCoordinates).getArray

/-- `Coordinates.minusVector` (lines 125-131):
`self.getVector().minus(vector).toCoordinates()` — note: no representation
conversion at all, unlike `addVector`. -/
def Coordinates.minusVector (c : Coordinates) (vector : Vec) : Coordinates :=
  (c.getVector.minus vector).toCoordinates

/-- `Team` (lines 261-299): one of the two identities `ONE`/`TWO`;
equality is by the `name` entry of the team dictionary, i.e. by identity
of the constructor here. -/
inductive Team where
  | one : Team
  | two : Team
deriving DecidableEq, Repr

/-- `Team.opponent` (lines 292-293): swaps the two identities. -/
def Team.opponent : Team → Team
  | .one => .two
  | .two => .one

/-- `Field` (lines 302-313): one grid cell.  After construction the stored
`field` attribute is `None`, an `int` fish count, or a `Team`.  `fNone`
models the Python `None` (or empty-string) case, `fish n` an integer fish
count (`fish 0` is the value Python prints as `0`), `penguin t` an
occupying team. -/
inductive Field where
  | fNone : Field
  | fish (n : Nat) : Field
  | penguin (t : Team) : Field
deriving DecidableEq, Repr, Inhabited

/-- `Field.isEmpty` (lines 315-316): `self.field == 0`.  In Python
`None == 0` is `False`, and a `Team` (which defines `__eq__` only against
`Team` instances) compares unequal to `0` as well, so only the integer `0`
is empty. -/
def Field.isEmpty : Field → Bool
  | .fish 0 => true
  | _ => false

/-- `Field.isOccupied` (lines 318-319): `isinstance(self.field, Team)`. -/
def Field.isOccupied : Field → Bool
  | .penguin _ => true
  | _ => false

/-- `Field.getFish` (lines 321-322): `None if self.isOccupied() else
self.field`; an unoccupied cell holding Python `None` also yields `None`. -/
def Field.getFish : Field → Option Nat
  | .fish n => some n
  | _ => none

/-- `Field.getPenguin` (lines 324-325). -/
def Field.getPenguin : Field → Option Team
  | .penguin t => some t
  | _ => none

/-- `HexBoard` (lines 336-342): wraps the 2-dimensional `gameField` list,
indexed as `gameField[x][y]` (the outer index is called `x` by the
source). -/
structure HexBoard where
  gameField : List (List Field)
deriving DecidableEq, Repr

/-- `HexBoard.width` (lines 359-360): `len(self.gameField)`. -/
def HexBoard.width (b : HexBoard) : Nat :=
  b.gameField.length

/-- `HexBoard.height` (lines 362-363): `len(self.gameField[0])`.  Python
raises on an empty outer list; the theorems below only consider boards with
at least one row, where `headD` is the real first row. -/
def HexBoard.height (b : HexBoard) : Nat :=
  (b.gameField.headD []).length

/-- `HexBoard._HexBoard__getField` (lines 365-374): `self.gameField[x][y]`.
Only called by the source after the bounds check of `isValid`, so the
`getD` defaults are never reached on a rectangular board. -/
def HexBoard.cell (b : HexBoard) (x y : Nat) : Field :=
  (b.gameField.getD x []).getD y Field.fNone

/-- Well-formedness assumed by every board theorem: at least one row, at
least one column, and all rows of equal length (spec sec. 3: "all rows have
equal length").  On a ragged or empty grid the Python source can raise
exceptions the total model does not reproduce. -/
def HexBoard.wellFormed (b : HexBoard) : Prop :=
  0 < b.gameField.length ∧ 0 < b.height ∧
    ∀ row ∈ b.gameField, row.length = b.height

instance (b : HexBoard) : Decidable b.wellFormed := by
  unfold HexBoard.wellFormed
  infer_instance

/-- `HexBoard.isValid` (lines 355-357): normalises to array form, then
`0 <= x < len(gameField) and 0 <= y < len(gameField[0])`. -/
def HexBoard.isValid (b : HexBoard) (coordinates : Coordinates) : Bool :=
  let a := coordinates.getArray
  0 ≤ a.x ∧ a.x < (b.width : Int) ∧ 0 ≤ a.y ∧ a.y < (b.height : Int)

/-- `HexBoard.getField` (lines 376-387): array-normalise, return the cell
when valid, otherwise raise `IndexError` carrying the array coordinates. -/
def HexBoard.getField (b : HexBoard) (position : Coordinates) :
    Except PyError Field :=
  let a := position.getArray
  if b.isValid a then .ok (b.cell a.x.toNat a.y.toNat)
  else .error (.indexError a.x a.y)

/-- `HexBoard.getFieldOrNone` (lines 389-399): like `getField` but returns
`None` instead of raising. -/
def HexBoard.getFieldOrNone (b : HexBoard) (position : Coordinates) :
    Option Field :=
  let a := position.getArray
  if b.isValid a then some (b.cell a.x.toNat a.y.toNat) else none

/-- `HexBoard.getFieldByIndex` (lines 401-415): `x = index // self.width()`,
`y = index % self.width()` — both divide by the width — then a strict
`getField` lookup at array coordinates `(x, y)`. -/
def HexBoard.getFieldByIndex (b : HexBoard) (index : Nat) :
    Except PyError Field :=
  b.getField ⟨(index / b.width : Nat), (index % b.width : Nat), false⟩

/-- Sequential effectful map, evaluating left to right and propagating the
first raised exception — the semantics of a Python list comprehension or
accumulation loop over fallible calls. -/
def exceptMapM {α β ε : Type} (f : α → Except ε β) :
    List α → Except ε (List β)
  | [] => .ok []
  | a :: l => do
    let v ← f a
    let vs ← exceptMapM f l
    return v :: vs

/-- `HexBoard.getAllFields` (lines 417-422):
`[self.getFieldByIndex(i) for i in range(self.width() * self.height())]`;
the first raising index aborts the comprehension. -/
def HexBoard.getAllFields (b : HexBoard) : Except PyError (List Field) :=
  exceptMapM b.getFieldByIndex (List.range (b.width * b.height))

/-- `Move` (lines 191-219): optional origin `fromCoo` (absent denotes a
placement) and required destination `toCoo`. -/
structure Move where
  fromCoo : Option Coordinates
  toCoo : Coordinates
deriving DecidableEq, Repr

/-- `Board` (lines 462-473): wraps a `HexBoard` as `hexFields`. -/
structure Board where
  hexFields : HexBoard
deriving DecidableEq, Repr

/-- `Board.getMovesInDirection` (lines 475-483): for
`i in range(1, self.hexFields.width())` append
`Move(fromCoo=origin, toCoo=origin.getDoubleHex().addVector(direction.times(i)))`.
The source wraps the append in `try ... except IndexError: break`, but the
loop body performs no board lookup — `getDoubleHex`, `times`, `addVector`
and the `Move` constructor are pure arithmetic and dictionary building — so
the `IndexError` handler is unreachable and the loop always runs to the end
of the range. -/
def Board.getMovesInDirection (b : Board) (origin : Coordinates)
    (direction : Vec) : List Move :=
  (List.range' 1 (b.hexFields.width - 1)).map fun i =>
    { fromCoo := some origin
      toCoo := origin.getDoubleHex.addVector (direction.times (i : Int)) }

/-- `Board.possibleMovesFrom` (lines 490-502): raise `IndexError` when the
position is invalid, else concatenate `getMovesInDirection` over the six
directions in source order. -/
def Board.possibleMovesFrom (b : Board) (position : Coordinates) :
    Except PyError (List Move) :=
  if b.hexFields.isValid position then
    .ok (Vec.DIRECTIONS.flatMap fun direction =>
      b.getMovesInDirection position direction)
  else .error (.indexError position.x position.y)

/-- `Board.getPenguins` (lines 504-509):
`[field for field in self.hexFields.getAllFields() if field.isOccupied()]`. -/
def Board.getPenguins (b : Board) : Except PyError (List Field) :=
  (b.hexFields.getAllFields).map fun fields => fields.filter Field.isOccupied

/-- `Board.getTeamsPenguins` (lines 511-521): scan `x` over `range(width)`,
`y` over `range(height)`; for each cell occupied by a penguin of `team`
collect `Coordinates(x, y, False).getDoubleHex()`.  The inner
`getField(Coordinates(x, y, False))` never raises because `x < width` and
`y < height`, so the model reads the cell directly. -/
def Board.getTeamsPenguins (b : Board) (team : Team) : List Coordinates :=
  (List.range b.hexFields.width).flatMap fun x =>
    (List.range b.hexFields.height).filterMap fun y =>
      match (b.hexFields.cell x y).getPenguin with
      | some t => if t = team then
          some (Coordinates.getDoubleHex ⟨(x : Int), (y : Int), false⟩)
        else none
      | none => none

/-- `Fishes` (lines 527-539): the score pair. -/
structure Fishes where
  fishesOne : Nat
  fishesTwo : Nat
deriving DecidableEq, Repr

/-- `GameState` (lines 544-584): board, turn number, start team, fishes and
optional last move.  The derived attributes (`currentTeam`, `otherTeam`,
`currentPieces`) are functions below, exactly as `__init__` computes them. -/
structure GameState where
  board : Board
  turn : Int
  startTeam : Team
  fishes : Fishes
  lastMove : Option Move
deriving DecidableEq, Repr

/-- `GameState.currentTeamFromTurn` (lines 614-619):
`self.startTeam if self.turn % 2 == 0 else self.startTeam.opponent()`. -/
def GameState.currentTeamFromTurn (gs : GameState) : Team :=
  if gs.turn % 2 = 0 then gs.startTeam else gs.startTeam.opponent

/-- `self.currentTeam = self.currentTeamFromTurn()` (line 580). -/
def GameState.currentTeam (gs : GameState) : Team :=
  gs.currentTeamFromTurn

/-- `self.otherTeam = self.currentTeamFromTurn().opponent()` (line 581). -/
def GameState.otherTeam (gs : GameState) : Team :=
  gs.currentTeamFromTurn.opponent

/-- `self.currentPieces = self.board.getTeamsPenguins(self.currentTeam)`
(line 584). -/
def GameState.currentPieces (gs : GameState) : List Coordinates :=
  gs.board.getTeamsPenguins gs.currentTeam

/-- `GameState.getPossibleMoves` (lines 594-612): with fewer than 4 current
pieces, scan `x in range(width - 1)`, `y in range(height - 1)` and collect
placements `Move(fromCoo=None, toCoo=Coordinates(x, y, False).getDoubleHex())`
on unoccupied cells whose fish count equals 1; otherwise extend with
`possibleMovesFrom(piece)` for each current piece (any `IndexError`
propagates). -/
def GameState.getPossibleMoves (gs : GameState) :
    Except PyError (List Move) :=
  if gs.currentPieces.length < 4 then
    .ok ((List.range (gs.board.hexFields.width - 1)).flatMap fun x =>
      (List.range (gs.board.hexFields.height - 1)).filterMap fun y =>
        let field := gs.board.hexFields.cell x y
        if !field.isOccupied ∧ field.getFish = some 1 then
          some { fromCoo := none
                 toCoo := Coordinates.getDoubleHex ⟨(x : Int), (y : Int), false⟩ }
        else none)
  else do
    let chunks ← exceptMapM (fun piece => gs.board.possibleMovesFrom piece)
      gs.currentPieces
    return chunks.flatten

/-- `HexBoard.compareTo` compares cells with Python `!=`.  `Field` defines
no `__eq__`, so `!=` between two `Field` objects is object identity; a cell
is therefore modelled as a heap reference `ref` together with its
contents. -/
structure PyField where
  ref : Nat
  val : Field
deriving DecidableEq, Repr, Inhabited

/-- A `HexBoard` whose cells are explicit Python objects, for the
identity-based `compareTo`/`__eq__` (lines 424-435 and 455-456). -/
structure PyHexBoard where
  gameField : List (List PyField)
deriving DecidableEq, Repr

/-- `HexBoard.compareTo` (lines 424-435): for `x in range(len(gameField))`,
`y in range(len(gameField[0]))`, append `self.gameField[x][y]` whenever
`self.gameField[x][y] != other.gameField[x][y]`; the `!=` is identity
comparison of `Field` objects (no `__eq__` on `Field`). -/
def PyHexBoard.compareTo (b other : PyHexBoard) : List PyField :=
  (List.range b.gameField.length).flatMap fun x =>
    (List.range (b.gameField.headD []).length).filterMap fun y =>
      let s := (b.gameField.getD x []).getD y default
      let t := (other.gameField.getD x []).getD y default
      if s.ref ≠ t.ref then some s else none

/-- `HexBoard.__eq__` (lines 455-456): `return self.compareTo(other)` — a
list of fields, not a boolean. -/
def PyHexBoard.eqOperator (b other : PyHexBoard) : List PyField :=
  b.compareTo other

/-- Python truthiness of a list: non-empty lists are truthy, `[]` is
falsy. -/
def pyTruthy (l : List PyField) : Bool :=
  !l.isEmpty

/-!
Client session state machine (`socha/api/networking/game_client.py`).
The transport (`connect`, `disconnect`, `network_interface.connected`) and
the `IClientHandler` callbacks live outside the dispatcher; connection
attempts are abstracted by their observable outcome and callbacks by an
event trace.
-/

/-- Observable outcome of one `self.connect()` call inside the reconnect
loop of `_handle_left` (game_client.py lines 208-219): the call returns
and `network_interface.connected` is true, it returns with the flag false,
or it raises an exception. -/
inductive ConnectOutcome where
  | ok : ConnectOutcome
  | noConn : ConnectOutcome
  | raised : ConnectOutcome
deriving DecidableEq, Repr

/-- The session state visible to the claims: the `running` flag, the
transport `connected` flag, and counters for the `join()` calls, the
`connect()` attempts, the one-second sleeps, the `stop()` calls and whether
the survive-mode `while_disconnected` hook ran. -/
structure ClientState where
  running : Bool
  connected : Bool
  joins : Nat
  attempts : Nat
  sleeps : Nat
  stops : Nat
  surviveHook : Bool
deriving DecidableEq, Repr

/-- `GameClient.stop` (game_client.py lines 252-259): disconnect if
connected, then set `running` to false. -/
def ClientState.stop (s : ClientState) : ClientState :=
  { s with connected := false, running := false, stops := s.stops + 1 }

/-- The `for _ in range(3)` reconnect loop of `_handle_left` (lines
208-219).  `outcomes k` is the outcome of the `(k+1)`-th `connect()` call.
On `ok` the loop breaks before the `time.sleep(1)`; on `noConn` it sleeps
and retries; on `raised` the handler logs, calls `stop()`, then sleeps and
retries. -/
def reconnectLoop (outcomes : Nat → ConnectOutcome) :
    Nat → Nat → ClientState → ClientState
  | _, 0, s => s
  | i, fuel + 1, s =>
    match outcomes i with
    | .ok => { s with attempts := s.attempts + 1, connected := true }
    | .noConn => reconnectLoop outcomes (i + 1) fuel
        { s with attempts := s.attempts + 1, connected := false,
                 sleeps := s.sleeps + 1 }
    | .raised => reconnectLoop outcomes (i + 1) fuel
        (let t := ClientState.stop { s with attempts := s.attempts + 1 }
         { t with sleeps := t.sleeps + 1 })

/-- `GameClient._handle_left` (lines 199-223): disconnect the transport;
if survive mode, run the idle hook; if auto-reconnect, run the 3-attempt
loop and then call `join()` unconditionally and return; otherwise
`stop()`. -/
def handleLeft (survive autoReconnect : Bool)
    (outcomes : Nat → ConnectOutcome) (s : ClientState) : ClientState :=
  let s1 := { s with connected := false }
  let s2 := if survive then { s1 with surviveHook := true } else s1
  if autoReconnect then
    let s3 := reconnectLoop outcomes 0 3 s2
    { s3 with joins := s3.joins + 1 }
  else
    s2.stop

/-- Inbound packets dispatched by `GameClient._on_object` (lines 124-152),
one constructor per `isinstance` branch in source order. -/
inductive Message where
  | errorpacket (text : String) : Message
  | joined (roomId : String) : Message
  | left (roomId : String) : Message
  | roomMoveRequest (roomId : String) : Message
  | roomState (roomId : String) : Message
  | roomResult (roomId : String) : Message
  | roomOther (roomId : String) : Message
deriving DecidableEq, Repr

/-- Observable calls made by the dispatcher: handler callbacks and the
internal sub-handlers (whose bodies never touch `running`/`connected`),
plus the `stop()` call. -/
inductive Event where
  | onError (text : String) : Event
  | onGameJoined (roomId : String) : Event
  | onGameLeft : Event
  | moveRequestHandled (roomId : String) : Event
  | stateHandled (roomId : String) : Event
  | onGameOver (roomId : String) : Event
  | onRoomMessage (roomId : String) : Event
  | stopClient : Event
deriving DecidableEq, Repr

/-- `GameClient._on_object` (lines 124-152): an `Errorpacket` logs, calls
`on_error(str(message))` and then `self.stop()`; every other packet is
routed to its handler and leaves `running`/`connected` untouched. -/
def onObject (s : ClientState) : Message → ClientState × List Event
  | .errorpacket text => (s.stop, [.onError text, .stopClient])
  | .joined roomId => (s, [.onGameJoined roomId])
  | .left _ => (s, [.onGameLeft])
  | .roomMoveRequest roomId => (s, [.moveRequestHandled roomId])
  | .roomState roomId => (s, [.stateHandled roomId])
  | .roomResult roomId => (s, [.onGameOver roomId])
  | .roomOther roomId => (s, [.onRoomMessage roomId])

/-! Helper lemmas shared by several claim theorems. -/

/-- `getArray` always yields an array-tagged coordinate, so it is
idempotent. -/
theorem Coordinates.getArray_getArray (c : Coordinates) :
    c.getArray.getArray = c.getArray := by
  obtain ⟨x, y, d⟩ := c
  cases d <;> simp [Coordinates.getArray, Coordinates.doubleHexToArray]

/-- `isValid` only looks at the array form, which `getArray` fixes. -/
theorem HexBoard.isValid_getArray (b : HexBoard) (c : Coordinates) :
    b.isValid c.getArray = b.isValid c := by
  simp [HexBoard.isValid, Coordinates.getArray_getArray]

/-- `exceptMapM` succeeds when every element succeeds, and every produced
value comes from some element. -/
theorem exceptMapM_ok_of_forall {α β ε : Type} (l : List α)
    (f : α → Except ε β) (h : ∀ a ∈ l, ∃ v, f a = .ok v) :
    ∃ vs, exceptMapM f l = .ok vs ∧ ∀ v ∈ vs, ∃ a ∈ l, f a = .ok v := by
  induction l with
  | nil => exact ⟨[], rfl, by simp⟩
  | cons a l ih =>
    obtain ⟨v, hv⟩ := h a (by simp)
    obtain ⟨vs, hvs, hmem⟩ := ih fun a ha => h a (by simp [ha])
    refine ⟨v :: vs, ?_, ?_⟩
    · simp [exceptMapM, hv, hvs, bind, Except.bind, pure, Except.pure]
    · intro w hw
      rcases List.mem_cons.mp hw with h1 | h1
      · exact ⟨a, by simp, h1 ▸ hv⟩
      · obtain ⟨a', ha', hfa'⟩ := hmem w h1
        exact ⟨a', by simp [ha'], hfa'⟩

/-- `exceptMapM` maps element-wise results when none fails. -/
theorem exceptMapM_eq_ok_map {α β ε : Type} (l : List α)
    (f : α → Except ε β) (g : α → β) (h : ∀ a ∈ l, f a = .ok (g a)) :
    exceptMapM f l = .ok (l.map g) := by
  induction l with
  | nil => rfl
  | cons a l ih =>
    have := h a (by simp)
    simp [exceptMapM, this, ih fun a ha => h a (by simp [ha]),
      bind, Except.bind, pure, Except.pure]

/-- `exceptMapM` fails when some element fails. -/
theorem exceptMapM_eq_error_of_exists {α β ε : Type} (l : List α)
    (f : α → Except ε β) (h : ∃ a ∈ l, ∀ v, f a ≠ .ok v) :
    ∃ e, exceptMapM f l = .error e := by
  induction l with
  | nil => simp at h
  | cons a l ih =>
    rcases ha : f a with e | v
    · exact ⟨e, by simp [exceptMapM, ha, bind, Except.bind]⟩
    · obtain ⟨b, hb, hfb⟩ := h
      rcases List.mem_cons.mp hb with h1 | h1
      · exact absurd (h1 ▸ ha) (hfb v)
      · obtain ⟨e, he⟩ := ih ⟨b, h1, hfb⟩
        exact ⟨e, by simp [exceptMapM, ha, he, bind, Except.bind]⟩

/-- `Int.tdiv` by 2 on a natural-number cast is natural division by 2. -/
theorem tdiv_two_ofNat (m : Nat) :
    Int.tdiv (m : Int) 2 = ((m / 2 : Nat) : Int) := rfl

/-- `getField` at a natural array coordinate is a plain guarded lookup. -/
theorem getField_natCoord (b : HexBoard) (x y : Nat) :
    b.getField ⟨(x : Int), (y : Int), false⟩
      = if x < b.width ∧ y < b.height then .ok (b.cell x y)
        else .error (.indexError (x : Int) (y : Int)) := by
  have hga : (⟨(x : Int), (y : Int), false⟩ : Coordinates).getArray
      = ⟨(x : Int), (y : Int), false⟩ := by
    simp [Coordinates.getArray]
  by_cases h : x < b.width ∧ y < b.height
  · have hval : b.isValid ⟨(x : Int), (y : Int), false⟩ = true := by
      simp only [HexBoard.isValid, hga, decide_eq_true_eq]
      exact ⟨Int.ofNat_nonneg x, by exact_mod_cast h.1,
        Int.ofNat_nonneg y, by exact_mod_cast h.2⟩
    simp [HexBoard.getField, hga, hval, h]
  · have hval : b.isValid ⟨(x : Int), (y : Int), false⟩ = false := by
      simp only [HexBoard.isValid, hga, decide_eq_false_iff_not]
      omega
    simp [HexBoard.getField, hga, hval, h]

/-- The truncating division of `doubleHexToArray`, applied to a double-hex
component built from a natural array component `x` and a parity offset of
0 or 1, lands in `[0, x]`: the lossy truncation can only shrink it. -/
theorem tdiv_offset_bounds (x : Nat) (off : Int) (hoff : off = 0 ∨ off = 1) :
    0 ≤ Int.tdiv ((x : Int) * 2 + off - 2 * off) 2
    ∧ Int.tdiv ((x : Int) * 2 + off - 2 * off) 2 ≤ (x : Int) := by
  rcases hoff with h | h <;> subst h
  · have harg : (x : Int) * 2 + 0 - 2 * 0 = ((2 * x : Nat) : Int) := by
      push_cast; ring
    have hdiv : (2 * x) / 2 = x := by omega
    rw [harg, tdiv_two_ofNat, hdiv]
    exact ⟨Int.ofNat_nonneg _, le_refl _⟩
  · cases x with
    | zero =>
      constructor <;> decide
    | succ k =>
      have harg : ((k + 1 : Nat) : Int) * 2 + 1 - 2 * 1
          = ((2 * k + 1 : Nat) : Int) := by push_cast; ring
      have hdiv : (2 * k + 1) / 2 = k := by omega
      rw [harg, tdiv_two_ofNat, hdiv]
      exact ⟨Int.ofNat_nonneg _, by exact_mod_cast Nat.le_succ k⟩

/-- The array form of the double-hex form of a natural array coordinate
`(x, y)`, spelled out. -/
theorem getDoubleHex_getArray_eq (x y : Nat) :
    (Coordinates.getDoubleHex ⟨(x : Int), (y : Int), false⟩).getArray
      = ⟨Int.tdiv ((x : Int) * 2 + (if (y : Int) % 2 = 1 then 1 else 0)
            - 2 * (if (y : Int) % 2 = 1 then 1 else 0)) 2,
          (y : Int), false⟩ := by
  simp [Coordinates.getDoubleHex, Coordinates.getArray,
    Coordinates.arrayToDoubleHex, Coordinates.doubleHexToArray]

/-- Every coordinate returned by `getTeamsPenguins` is the double-hex form
of an in-range natural array coordinate. -/
theorem mem_getTeamsPenguins (b : Board) (team : Team) (p : Coordinates)
    (hp : p ∈ b.getTeamsPenguins team) :
    ∃ x y : Nat, x < b.hexFields.width ∧ y < b.hexFields.height
      ∧ p = Coordinates.getDoubleHex ⟨(x : Int), (y : Int), false⟩ := by
  unfold Board.getTeamsPenguins at hp
  rw [List.mem_flatMap] at hp
  obtain ⟨x, hx, hp⟩ := hp
  rw [List.mem_filterMap] at hp
  obtain ⟨y, hy, hpy⟩ := hp
  refine ⟨x, y, List.mem_range.mp hx, List.mem_range.mp hy, ?_⟩
  rcases hc : (b.hexFields.cell x y).getPenguin with _ | t <;>
    rw [hc] at hpy <;> dsimp only at hpy
  · simp at hpy
  · by_cases ht : t = team
    · rw [if_pos ht] at hpy
      exact (Option.some_inj.mp hpy).symm
    · rw [if_neg ht] at hpy
      simp at hpy

/-- The double-hex coordinates produced by `getTeamsPenguins` pass the
board's validity check, so `possibleMovesFrom` never raises on them. -/
theorem isValid_of_mem_getTeamsPenguins (b : Board) (team : Team)
    (p : Coordinates) (hp : p ∈ b.getTeamsPenguins team) :
    b.hexFields.isValid p = true := by
  obtain ⟨x, y, hx, hy, hpxy⟩ := mem_getTeamsPenguins b team p hp
  have hoff : (if (y : Int) % 2 = 1 then (1 : Int) else 0) = 0
      ∨ (if (y : Int) % 2 = 1 then (1 : Int) else 0) = 1 := by
    split <;> simp
  obtain ⟨h0, h1⟩ := tdiv_offset_bounds x _ hoff
  subst hpxy
  simp only [HexBoard.isValid, getDoubleHex_getArray_eq, decide_eq_true_eq]
  refine ⟨h0, lt_of_le_of_lt h1 ?_, Int.ofNat_nonneg y, ?_⟩
  · exact_mod_cast hx
  · exact_mod_cast hy

/-!
## Claim C1

"For every valid array-form coordinate `c`, converting it to double-hex
with `arrayToDoubleHex` and back with `doubleHexToArray` yields `c` again
(x, y and the isDouble tag all equal), and for every valid double-hex
coordinate the conversion the other way round-trips as well."

The code violates this: `doubleHexToArray` computes
`int(self.x / 2 - offset)` instead of the true inverse
`(self.x - offset) // 2`.  For the array coordinate `(1, 1)` the forward
conversion yields double-hex `(3, 1)`, and the backward conversion then
truncates `3/2 - 1 = 0.5` to `0`, not `1`.  The docstrings declare the two
functions to be mutual conversions and the spec states the round-trip
invariant, so this is a slip in the code.
-/

/-- C1: the round trip fails at the array coordinate `(1, 1)`: the forward
conversion gives double-hex `(3, 1)`, the backward conversion returns
array `(0, 1)` instead of `(1, 1)`; the double-hex round trip fails at
`(3, 1)` likewise. -/
theorem c1_roundTrip_fails :
    Coordinates.arrayToDoubleHex ⟨1, 1, false⟩ = ⟨3, 1, true⟩
    ∧ Coordinates.doubleHexToArray (Coordinates.arrayToDoubleHex ⟨1, 1, false⟩)
        = ⟨0, 1, false⟩
    ∧ Coordinates.doubleHexToArray (Coordinates.arrayToDoubleHex ⟨1, 1, false⟩)
        ≠ ⟨1, 1, false⟩
    ∧ Coordinates.arrayToDoubleHex (Coordinates.doubleHexToArray ⟨3, 1, true⟩)
        ≠ ⟨3, 1, true⟩ := by
  decide

/-!
## Claim C2

"For every origin coordinate and every direction vector,
`getMovesInDirection` collects the moves obtained by adding the direction
scaled by 1, 2, 3, ... to the origin, stopping exactly when the resulting
array coordinate first falls outside the board bounds, so every returned
move's destination is an in-range board coordinate."

The code violates this: the loop body does no board lookup, so the
`except IndexError: break` guard can never fire and the loop always emits
`width - 1` moves, in-range or not.  The source's own comment ("until a
field is not valid") and the dead exception handler show the intended
bounds check, so this is a slip in the code.
-/

/-- C2: on a 3-row board, casting from double-hex origin `(0, 0)` in
direction `(-2, 0)` returns two moves whose destinations `(-2, 0)` and
`(-4, 0)` are both out of range, where the claim demands the empty list. -/
theorem c2_ray_escapes_board :
    Board.getMovesInDirection ⟨⟨[[.fish 1], [.fish 1], [.fish 1]]⟩⟩
        ⟨0, 0, true⟩ ⟨-2, 0⟩
      = [⟨some ⟨0, 0, true⟩, ⟨-2, 0, true⟩⟩, ⟨some ⟨0, 0, true⟩, ⟨-4, 0, true⟩⟩]
    ∧ HexBoard.isValid ⟨[[.fish 1], [.fish 1], [.fish 1]]⟩ ⟨-2, 0, true⟩ = false
    ∧ HexBoard.isValid ⟨[[.fish 1], [.fish 1], [.fish 1]]⟩ ⟨-4, 0, true⟩ = false := by
  decide

/-!
## Claim C3

"When the client is configured for auto-reconnect and a room-left event
occurs, reconnection is attempted at most 3 times with one-second spacing;
if all 3 attempts fail the client stops (running becomes false without
rejoining); on the first successful reconnection the join procedure is
re-run exactly once and the receive loop resumes; if an attempt raises a
transport error it is logged and the client stops."

The code violates the all-fail part: after the `for _ in range(3)` loop,
`_handle_left` calls `self.join()` unconditionally before returning, so
when every attempt leaves the transport unconnected (without raising) the
client neither stops nor skips the rejoin — `running` stays true and
`join()` runs anyway.  Likewise, after an attempt raises, `stop()` is
called but the loop keeps retrying and `join()` still runs.
-/

/-- C3 counterexample: starting from a running client with auto-reconnect
on (survive off), three consecutive attempts that fail without raising
leave `running = true` and still call `join()` once — the claim's
"running becomes false without rejoining" is false at this input. -/
theorem c3_all_fail_keeps_running :
    (handleLeft false true (fun _ => ConnectOutcome.noConn)
        ⟨true, true, 0, 0, 0, 0, false⟩).running = true
    ∧ (handleLeft false true (fun _ => ConnectOutcome.noConn)
        ⟨true, true, 0, 0, 0, 0, false⟩).joins = 1 := by
  decide

/-- C3 amended: with auto-reconnect configured, a room-left event triggers
between 1 and 3 connection attempts, breaking at the first success (with a
one-second sleep after every unsuccessful attempt), and then re-runs the
join procedure exactly once unconditionally; when no attempt raises,
`running` is left unchanged — in particular three failed attempts leave
the client running and rejoined rather than stopped; an attempt that
raises logs and calls `stop()` (running becomes false), but the loop still
continues and the join is still re-run. -/
theorem c3_amended_reconnect (sv : Bool) (outcomes : Nat → ConnectOutcome)
    (s : ClientState) :
    (handleLeft sv true outcomes s).joins = s.joins + 1
    ∧ s.attempts + 1 ≤ (handleLeft sv true outcomes s).attempts
    ∧ (handleLeft sv true outcomes s).attempts ≤ s.attempts + 3
    ∧ (outcomes 0 = .ok →
        (handleLeft sv true outcomes s).attempts = s.attempts + 1
        ∧ (handleLeft sv true outcomes s).connected = true
        ∧ (handleLeft sv true outcomes s).running = s.running
        ∧ (handleLeft sv true outcomes s).sleeps = s.sleeps)
    ∧ ((outcomes 0 ≠ .raised ∧ outcomes 1 ≠ .raised ∧ outcomes 2 ≠ .raised) →
        (handleLeft sv true outcomes s).running = s.running)
    ∧ ((outcomes 0 = .noConn ∧ outcomes 1 = .noConn ∧ outcomes 2 = .noConn) →
        (handleLeft sv true outcomes s).running = s.running
        ∧ (handleLeft sv true outcomes s).connected = false
        ∧ (handleLeft sv true outcomes s).sleeps = s.sleeps + 3
        ∧ (handleLeft sv true outcomes s).attempts = s.attempts + 3)
    ∧ (outcomes 0 = .raised →
        (handleLeft sv true outcomes s).running = false) := by
  rcases h0 : outcomes 0 <;> rcases h1 : outcomes 1 <;>
    rcases h2 : outcomes 2 <;> cases sv <;>
    simp [handleLeft, reconnectLoop, h0, h1, h2, ClientState.stop]

/-- C3 amended, witness: success on the second attempt re-runs the join
exactly once after two attempts and one sleep, leaving the client
running. -/
theorem c3_amended_witness :
    (handleLeft false true
        (fun k => if k = 0 then ConnectOutcome.noConn else ConnectOutcome.ok)
        ⟨true, true, 0, 0, 0, 0, false⟩).joins = 1
    ∧ (handleLeft false true
        (fun k => if k = 0 then ConnectOutcome.noConn else ConnectOutcome.ok)
        ⟨true, true, 0, 0, 0, 0, false⟩).running = true := by
  have h := c3_amended_reconnect false
    (fun k => if k = 0 then ConnectOutcome.noConn else ConnectOutcome.ok)
    ⟨true, true, 0, 0, 0, 0, false⟩
  exact ⟨h.1, h.2.2.2.2.1 ⟨by decide, by decide, by decide⟩⟩

/-!
## Claim C4

"`Coordinates.addVector` and `Coordinates.minusVector` both perform the
vector arithmetic in double-hex space regardless of whether the receiver is
tagged as array or double-hex form, converting an array-form receiver to
double-hex first and converting the result back, so for every coordinate
and vector the result carries the same isDouble tag as the receiver and
denotes the correct physical hex."

`addVector` does convert and convert back, preserving the receiver's tag.
`minusVector` does not: it subtracts componentwise from the raw
coordinates and tags the result `isDouble = True` unconditionally, so an
array-form receiver gets back a double-hex-tagged result computed in the
wrong space.
-/

/-- C4 counterexample: for the array-form receiver `(1, 1)` and vector
`(1, 1)`, `minusVector` returns `(0, 0)` tagged as double-hex — the tag
changed from `False` to `True` and no conversion was performed (the
double-hex form of array `(1, 1)` is `(3, 1)`, so arithmetic in double-hex
space would subtract from `(3, 1)`, not from `(1, 1)`). -/
theorem c4_minusVector_ignores_tag :
    Coordinates.minusVector ⟨1, 1, false⟩ ⟨1, 1⟩ = ⟨0, 0, true⟩
    ∧ (Coordinates.minusVector ⟨1, 1, false⟩ ⟨1, 1⟩).isDouble ≠ false := by
  decide

/-- C4 amended: `addVector` converts an array receiver to double-hex, adds,
and converts back, so its result always carries the receiver's tag, and on
a double-hex receiver it adds componentwise; `minusVector` never converts:
it subtracts componentwise from the raw coordinates and always returns a
double-hex-tagged result, which is the correct double-hex arithmetic only
when the receiver is already tagged double-hex. -/
theorem c4_amended_vector_arithmetic (c : Coordinates) (v : Vec) :
    (c.addVector v).isDouble = c.isDouble
    ∧ (c.minusVector v).isDouble = true
    ∧ (c.isDouble = true →
        c.addVector v = ⟨c.x + v.dx, c.y + v.dy, true⟩
        ∧ c.minusVector v = ⟨c.x - v.dx, c.y - v.dy, true⟩) := by
  obtain ⟨x, y, d⟩ := c
  cases d <;>
    simp [Coordinates.addVector, Coordinates.minusVector,
      Coordinates.getArray, Coordinates.getDoubleHex, Coordinates.getVector,
      Vec.plus, Vec.minus, Vec.toCoordinates, Coordinates.arrayToDoubleHex,
      Coordinates.doubleHexToArray]

/-- C4 amended, witness at the double-hex receiver `(2, 0)` and vector
`(1, 1)`. -/
theorem c4_amended_witness :
    (Coordinates.addVector ⟨2, 0, true⟩ ⟨1, 1⟩).isDouble = true
    ∧ Coordinates.addVector ⟨2, 0, true⟩ ⟨1, 1⟩ = ⟨3, 1, true⟩
    ∧ Coordinates.minusVector ⟨2, 0, true⟩ ⟨1, 1⟩ = ⟨1, -1, true⟩ := by
  have h := c4_amended_vector_arithmetic ⟨2, 0, true⟩ ⟨1, 1⟩
  exact ⟨by rw [h.1], (h.2.2 rfl).1, (h.2.2 rfl).2⟩

/-!
## Claim C5

"For every game state whose current team has exactly 3 (more generally,
fewer than 4) pieces on the board, `getPossibleMoves` returns only
placement moves (origin absent) whose destinations are unoccupied cells
carrying exactly one fish, scanned over the interior cells with array x in
[0, width-1) and y in [0, height-1); for every state with 4 or more
current-team pieces it returns only movement moves (origin present, the
union of `possibleMovesFrom` over the team's pieces) and no placement
moves."  This matches `getPossibleMoves`: the placement scan really stops
one short of the last row and column, and in the movement branch every
piece coordinate passes the validity check (its array form can only shrink
under the lossy conversion), so `possibleMovesFrom` never raises and every
emitted move carries its piece as origin.
-/

/-- C5: with fewer than 4 current pieces `getPossibleMoves` succeeds with
exactly the placements (origin `none`) onto interior cells (`x < width-1`,
`y < height-1`) that are unoccupied with fish count 1, destination the
double-hex form of the cell; with 4 or more pieces it succeeds, every move
originates (origin `some p`) from a current piece, and every piece's
`possibleMovesFrom` list is contained in the result. -/
theorem c5_phase_switch (gs : GameState)
    (hwf : gs.board.hexFields.wellFormed) :
    (gs.currentPieces.length < 4 →
      ∃ l, gs.getPossibleMoves = .ok l
        ∧ (∀ m ∈ l, m.fromCoo = none
            ∧ ∃ x y : Nat, x + 1 < gs.board.hexFields.width
              ∧ y + 1 < gs.board.hexFields.height
              ∧ (gs.board.hexFields.cell x y).isOccupied = false
              ∧ (gs.board.hexFields.cell x y).getFish = some 1
              ∧ m.toCoo
                  = Coordinates.getDoubleHex ⟨(x : Int), (y : Int), false⟩)
        ∧ (∀ x y : Nat, x + 1 < gs.board.hexFields.width →
            y + 1 < gs.board.hexFields.height →
            (gs.board.hexFields.cell x y).isOccupied = false →
            (gs.board.hexFields.cell x y).getFish = some 1 →
            (⟨none, Coordinates.getDoubleHex ⟨(x : Int), (y : Int), false⟩⟩ :
              Move) ∈ l))
    ∧ (4 ≤ gs.currentPieces.length →
      ∃ l, gs.getPossibleMoves = .ok l
        ∧ (∀ m ∈ l, ∃ p ∈ gs.currentPieces, m.fromCoo = some p)
        ∧ (∀ p ∈ gs.currentPieces, ∃ moves,
            gs.board.possibleMovesFrom p = .ok moves
            ∧ ∀ m ∈ moves, m ∈ l)) := by
  constructor
  · intro hlt
    rw [GameState.getPossibleMoves, if_pos hlt]
    refine ⟨_, rfl, ?_, ?_⟩
    · intro m hm
      rw [List.mem_flatMap] at hm
      obtain ⟨x, hx, hm⟩ := hm
      rw [List.mem_filterMap] at hm
      obtain ⟨y, hy, hmy⟩ := hm
      rw [List.mem_range] at hx hy
      by_cases hcond : (!(gs.board.hexFields.cell x y).isOccupied : Bool)
          ∧ (gs.board.hexFields.cell x y).getFish = some 1
      · rw [if_pos hcond] at hmy
        obtain ⟨hocc, hfish⟩ := hcond
        rw [Bool.not_eq_true'] at hocc
        cases hmy
        exact ⟨rfl, x, y, by omega, by omega, hocc, hfish, rfl⟩
      · rw [if_neg hcond] at hmy
        simp at hmy
    · intro x y hx hy hocc hfish
      rw [List.mem_flatMap]
      refine ⟨x, List.mem_range.mpr (by omega), ?_⟩
      rw [List.mem_filterMap]
      refine ⟨y, List.mem_range.mpr (by omega), ?_⟩
      rw [if_pos ⟨by simp [hocc], hfish⟩]
  · intro hge
    rw [GameState.getPossibleMoves, if_neg (by omega)]
    have hall : ∀ p ∈ gs.currentPieces,
        gs.board.possibleMovesFrom p
          = .ok (Vec.DIRECTIONS.flatMap fun direction =>
              gs.board.getMovesInDirection p direction) := by
      intro p hp
      rw [Board.possibleMovesFrom,
        if_pos (isValid_of_mem_getTeamsPenguins gs.board _ p hp)]
    have hmap := exceptMapM_eq_ok_map gs.currentPieces _
      (fun p => Vec.DIRECTIONS.flatMap fun direction =>
        gs.board.getMovesInDirection p direction) hall
    refine ⟨_, by rw [hmap]; rfl, ?_, ?_⟩
    · intro m hm
      rw [List.mem_flatten] at hm
      obtain ⟨chunk, hchunk, hmc⟩ := hm
      rw [List.mem_map] at hchunk
      obtain ⟨p, hp, hpc⟩ := hchunk
      subst hpc
      refine ⟨p, hp, ?_⟩
      rw [List.mem_flatMap] at hmc
      obtain ⟨d, _, hmd⟩ := hmc
      rw [Board.getMovesInDirection, List.mem_map] at hmd
      obtain ⟨i, _, hmi⟩ := hmd
      rw [← hmi]
    · intro p hp
      refine ⟨_, hall p hp, ?_⟩
      intro m hm
      rw [List.mem_flatten]
      exact ⟨_, List.mem_map.mpr ⟨p, hp, rfl⟩, hm⟩

/-- C5 witness: a concrete placement-phase state (no pieces on a 3-by-2
all-one-fish board) yields only origin-free moves, containing the
placement onto cell `(0, 0)`. -/
theorem c5_witness :
    ∃ l, (GameState.mk ⟨⟨[[.fish 1, .fish 1], [.fish 1, .fish 1],
          [.fish 1, .fish 1]]⟩⟩ 0 .one ⟨0, 0⟩ none).getPossibleMoves
        = .ok l
      ∧ (∀ m ∈ l, m.fromCoo = none)
      ∧ (⟨none, Coordinates.getDoubleHex ⟨0, 0, false⟩⟩ : Move) ∈ l := by
  have h := c5_phase_switch (GameState.mk ⟨⟨[[.fish 1, .fish 1],
    [.fish 1, .fish 1], [.fish 1, .fish 1]]⟩⟩ 0 .one ⟨0, 0⟩ none)
    (by decide)
  obtain ⟨l, hok, hmem, hcov⟩ := h.1 (by decide)
  exact ⟨l, hok, fun m hm => (hmem m hm).1,
    hcov 0 0 (by decide) (by decide) (by decide) (by decide)⟩

/-!
## Claim C6

"For every board of width W and height H and every coordinate, `isValid`
holds if and only if the coordinate's array form (x, y) satisfies
`0 <= x < W` and `0 <= y < H`; `getField` on an invalid coordinate always
fails with the out-of-range error, and `getFieldOrNone` never fails,
returning the field when valid and an absent value otherwise."  This
matches `isValid`, `getField` and `getFieldOrNone` directly (the
well-formedness hypothesis only rules out the ragged/empty grids on which
the Python row access itself could raise).
-/

/-- C6: `isValid` is exactly the bounds check on the array form;
`getField` returns the error carrying the array coordinates whenever
`isValid` fails and the looked-up cell whenever it holds; `getFieldOrNone`
is total, returning the same cell when valid and `none` otherwise. -/
theorem c6_bounds_and_lookups (b : HexBoard) (hwf : b.wellFormed)
    (c : Coordinates) :
    (b.isValid c = true ↔
      (0 ≤ c.getArray.x ∧ c.getArray.x < (b.width : Int)
        ∧ 0 ≤ c.getArray.y ∧ c.getArray.y < (b.height : Int)))
    ∧ (b.isValid c = false →
        b.getField c = .error (.indexError c.getArray.x c.getArray.y))
    ∧ (b.isValid c = true →
        b.getField c = .ok (b.cell c.getArray.x.toNat c.getArray.y.toNat))
    ∧ b.getFieldOrNone c =
        (if b.isValid c then
          some (b.cell c.getArray.x.toNat c.getArray.y.toNat) else none) := by
  refine ⟨?_, ?_, ?_, ?_⟩
  · simp [HexBoard.isValid]
  · intro h
    simp only [HexBoard.getField, HexBoard.isValid_getArray, h]
    simp
  · intro h
    simp only [HexBoard.getField, HexBoard.isValid_getArray, h]
    simp
  · by_cases h : b.isValid c = true
    · simp only [HexBoard.getFieldOrNone, HexBoard.isValid_getArray, h]
    · rw [Bool.not_eq_true] at h
      simp only [HexBoard.getFieldOrNone, HexBoard.isValid_getArray, h]

/-- C6 witness on a concrete 2-by-2 board: the in-range coordinate
`(1, 0)` is valid and looked up, the out-of-range coordinate `(5, 0)`
is invalid, raises `IndexError` under `getField` and yields `none` under
`getFieldOrNone`. -/
theorem c6_witness :
    HexBoard.getField ⟨[[.fish 1, .fish 0], [.penguin .one, .fish 2]]⟩
        ⟨5, 0, false⟩ = .error (.indexError 5 0)
    ∧ HexBoard.getFieldOrNone ⟨[[.fish 1, .fish 0], [.penguin .one, .fish 2]]⟩
        ⟨5, 0, false⟩ = none
    ∧ HexBoard.getField ⟨[[.fish 1, .fish 0], [.penguin .one, .fish 2]]⟩
        ⟨1, 0, false⟩ = .ok (.penguin .one) := by
  have hwf : (⟨[[.fish 1, .fish 0], [.penguin .one, .fish 2]]⟩ :
      HexBoard).wellFormed := by decide
  have h1 := c6_bounds_and_lookups _ hwf ⟨5, 0, false⟩
  have h2 := c6_bounds_and_lookups _ hwf ⟨1, 0, false⟩
  refine ⟨?_, ?_, ?_⟩
  · have := h1.2.1 (by decide)
    simpa using this
  · have := h1.2.2.2
    rw [this]
    decide
  · have := h2.2.2.1 (by decide)
    simpa using this

/-!
## Claim C7

"For every game state, `currentTeam` equals the starting team when the
turn number is even and the starting team's opponent when it is odd, so
`currentTeam` alternates strictly between consecutive turn numbers for a
fixed start team, and `otherTeam` always equals the opponent of
`currentTeam`."  This matches `currentTeamFromTurn` and the `__init__`
assignments exactly (Python `%` and `Int.emod` agree on negatives).
-/

/-- C7: turn parity determines `currentTeam`; bumping the turn by one flips
it to the opponent (hence strictly alternates), and `otherTeam` is always
the opponent of `currentTeam`. -/
theorem c7_currentTeam_parity (b : Board) (t : Int) (st : Team)
    (f : Fishes) (lm : Option Move) :
    (GameState.mk b t st f lm).currentTeam
        = (if t % 2 = 0 then st else st.opponent)
    ∧ (GameState.mk b (t + 1) st f lm).currentTeam
        = ((GameState.mk b t st f lm).currentTeam).opponent
    ∧ (GameState.mk b (t + 1) st f lm).currentTeam
        ≠ (GameState.mk b t st f lm).currentTeam
    ∧ (GameState.mk b t st f lm).otherTeam
        = ((GameState.mk b t st f lm).currentTeam).opponent := by
  rcases Int.emod_two_eq t with h | h
  · have h' : (t + 1) % 2 = 1 := by omega
    cases st <;>
      simp [GameState.currentTeam, GameState.otherTeam,
        GameState.currentTeamFromTurn, Team.opponent, h, h']
  · have h' : (t + 1) % 2 = 0 := by omega
    cases st <;>
      simp [GameState.currentTeam, GameState.otherTeam,
        GameState.currentTeamFromTurn, Team.opponent, h, h']

/-- C7 witness at turn 0 and turn 1 with start team ONE on a 1-by-1
board: the current team flips from ONE to TWO and `otherTeam` is TWO at
turn 0. -/
theorem c7_witness :
    (GameState.mk ⟨⟨[[Field.fish 1]]⟩⟩ 0 .one ⟨0, 0⟩ none).currentTeam
        = Team.one
    ∧ (GameState.mk ⟨⟨[[Field.fish 1]]⟩⟩ 1 .one ⟨0, 0⟩ none).currentTeam
        = Team.two
    ∧ (GameState.mk ⟨⟨[[Field.fish 1]]⟩⟩ 0 .one ⟨0, 0⟩ none).otherTeam
        = Team.two := by
  have h := c7_currentTeam_parity ⟨⟨[[Field.fish 1]]⟩⟩ 0 .one ⟨0, 0⟩ none
  have h1 : (GameState.mk ⟨⟨[[Field.fish 1]]⟩⟩ 0 .one ⟨0, 0⟩
      none).currentTeam = Team.one := by
    rw [h.1]; decide
  refine ⟨h1, ?_, ?_⟩
  · have h2 := h.2.1
    rw [h1] at h2
    exact h2
  · rw [h.2.2.2, h1]
    decide

/-!
## Claim C8

"Whenever the dispatcher receives a server error packet, it invokes the
handler's `on_error` callback with the error message and then stops the
session (running becomes false and the connection is closed); an error
packet never leaves the session running."  This matches the `Errorpacket`
branch of `_on_object` followed by `stop()`.
-/

/-- C8: dispatching an `Errorpacket` emits `on_error` with the message
followed by the `stop()` call, and the resulting state is not running and
not connected — for every starting state and message text. -/
theorem c8_errorpacket_stops (s : ClientState) (text : String) :
    (onObject s (.errorpacket text)).1.running = false
    ∧ (onObject s (.errorpacket text)).1.connected = false
    ∧ (onObject s (.errorpacket text)).2 = [.onError text, .stopClient] := by
  simp [onObject, ClientState.stop]

/-!
## Claim C9

"HexBoard equality (`__eq__`, via `compareTo`) does not return a boolean:
for every pair of boards of the same dimensions it returns the list of
fields of the receiver that differ from the other board, so comparing a
board to itself (or to any cell-wise equal board) yields an empty list,
which is falsy — `board == board` does not evaluate to `True`."

`Field` defines no `__eq__`, so the `!=` inside `compareTo` compares object
identity; "cell-wise equal" therefore means the cells compare equal under
Python `!=`, i.e. are identical objects.  `__eq__` indeed returns the diff
list, whose type is `List PyField`, never a boolean.
-/

/-- C9: on boards of the same dimensions whose corresponding cells compare
equal under Python object comparison (identical references) — in
particular a board compared against itself — `__eq__` returns the empty
list, which is falsy rather than the boolean `True`. -/
theorem c9_board_eq_returns_diff_list (b other : PyHexBoard)
    (hrows : other.gameField.length = b.gameField.length)
    (hrect : ∀ row ∈ b.gameField,
      row.length = (b.gameField.headD []).length)
    (hrect' : ∀ row ∈ other.gameField,
      row.length = (b.gameField.headD []).length)
    (heq : ∀ x ∈ List.range b.gameField.length,
      ∀ y ∈ List.range (b.gameField.headD []).length,
      ((b.gameField.getD x []).getD y default).ref
        = ((other.gameField.getD x []).getD y default).ref) :
    b.eqOperator other = [] ∧ pyTruthy (b.eqOperator other) = false := by
  have hnil : b.eqOperator other = [] := by
    unfold PyHexBoard.eqOperator PyHexBoard.compareTo
    rw [List.flatMap_eq_nil_iff]
    intro x hx
    rw [List.filterMap_eq_nil_iff]
    intro y hy
    have hr := heq x hx y hy
    simp only [List.getD, List.get?_eq_getElem?] at hr
    simp [hr]
  exact ⟨hnil, by simp [hnil, pyTruthy]⟩

/-- C9 witness: a concrete 2-by-2 board of four distinct field objects
compared with itself yields the empty, falsy diff list. -/
theorem c9_witness :
    PyHexBoard.eqOperator
        ⟨[[⟨0, .fish 1⟩, ⟨1, .fish 2⟩], [⟨2, .fNone⟩, ⟨3, .penguin .one⟩]]⟩
        ⟨[[⟨0, .fish 1⟩, ⟨1, .fish 2⟩], [⟨2, .fNone⟩, ⟨3, .penguin .one⟩]]⟩
      = []
    ∧ pyTruthy (PyHexBoard.eqOperator
        ⟨[[⟨0, .fish 1⟩, ⟨1, .fish 2⟩], [⟨2, .fNone⟩, ⟨3, .penguin .one⟩]]⟩
        ⟨[[⟨0, .fish 1⟩, ⟨1, .fish 2⟩], [⟨2, .fNone⟩, ⟨3, .penguin .one⟩]]⟩)
      = false := by
  exact c9_board_eq_returns_diff_list _ _ rfl (by decide) (by decide)
    (by decide)

/-!
## Claim C10

"`getFieldByIndex` decomposes a flat index as `x = index // width` and
`y = index % width` (dividing by width, not height), so for every board
whose width differs from its height, `getAllFields` — which iterates
indices 0 to `width*height - 1` — raises the out-of-range error before
completing; it enumerates all cells only on square boards, and
`getPenguins` inherits the same failure."

Both divisions really use the width: with `H > W` the index `W*W` gives
`x = W`, out of range; with `W > H` the index `H` gives `y = H`, out of
range; both lie below `W*H`, so the comprehension always hits them.  On a
square board `x = i / W < W` and `y = i % W < W = H` always hold and every
cell is reached.
-/

/-- C10: on a well-formed non-square board `getAllFields` raises the
out-of-range `IndexError` and `getPenguins` propagates exactly that error;
on a square board `getAllFields` succeeds with the cell at `(i / W, i % W)`
for each index `i`, and every cell `(x, y)` of the board is hit by some
index. -/
theorem c10_getAllFields_square_only (b : HexBoard) (hwf : b.wellFormed) :
    (b.width ≠ b.height →
      ∃ x y, b.getAllFields = .error (.indexError x y)
        ∧ (Board.mk b).getPenguins = .error (.indexError x y))
    ∧ (b.width = b.height →
      b.getAllFields = .ok ((List.range (b.width * b.height)).map
          fun i => b.cell (i / b.width) (i % b.width))
        ∧ ∀ x y : Nat, x < b.width → y < b.height →
            ∃ i, i < b.width * b.height
              ∧ i / b.width = x ∧ i % b.width = y) := by
  obtain ⟨hW0, hH0, _⟩ := hwf
  have hW0 : 0 < b.width := hW0
  constructor
  · intro hne
    have hfail : ∃ i ∈ List.range (b.width * b.height),
        ∀ v, b.getFieldByIndex i ≠ .ok v := by
      rcases Nat.lt_or_ge b.width b.height with hlt | hge
      · refine ⟨b.width * b.width, List.mem_range.mpr ?_, ?_⟩
        · exact mul_lt_mul_of_pos_left hlt hW0
        · intro v
          have hx : b.width * b.width / b.width = b.width :=
            Nat.mul_div_cancel_left _ hW0
          rw [HexBoard.getFieldByIndex, getField_natCoord,
            if_neg fun hcon => absurd (hx ▸ hcon.1) (lt_irrefl _)]
          simp
      · have hlt : b.height < b.width := by omega
        refine ⟨b.height, List.mem_range.mpr ?_, ?_⟩
        · have h2 : 2 ≤ b.width := by omega
          have := mul_le_mul_right' h2 b.height
          omega
        · intro v
          have hy : b.height % b.width = b.height := Nat.mod_eq_of_lt hlt
          rw [HexBoard.getFieldByIndex, getField_natCoord,
            if_neg fun hcon => absurd (hy ▸ hcon.2) (lt_irrefl _)]
          simp
    obtain ⟨e, he⟩ := exceptMapM_eq_error_of_exists _ _ hfail
    rcases e with ⟨x, y⟩
    refine ⟨x, y, he, ?_⟩
    have he' : (Board.mk b).hexFields.getAllFields
        = .error (.indexError x y) := he
    rw [Board.getPenguins, he']
    rfl
  · intro hsq
    constructor
    · apply exceptMapM_eq_ok_map
      intro i hi
      rw [List.mem_range] at hi
      have hx : i / b.width < b.width := by
        rw [Nat.div_lt_iff_lt_mul hW0]
        calc i < b.width * b.height := hi
          _ = b.height * b.width := Nat.mul_comm _ _
          _ = b.width * b.width := by rw [hsq]
      have hy : i % b.width < b.height := by
        rw [← hsq]; exact Nat.mod_lt _ hW0
      rw [HexBoard.getFieldByIndex, getField_natCoord, if_pos ⟨hx, hy⟩]
    · intro x y hx hy
      refine ⟨b.width * x + y, ?_, ?_, ?_⟩
      · have hy' : y < b.width := by omega
        calc b.width * x + y < b.width * x + b.width := by omega
          _ = b.width * (x + 1) := by ring
          _ ≤ b.width * b.width := Nat.mul_le_mul_left _ (by omega)
          _ = b.width * b.height := by rw [hsq]
      · have hy' : y < b.width := by omega
        rw [Nat.mul_add_div hW0, Nat.div_eq_of_lt hy']
        omega
      · have hy' : y < b.width := by omega
        rw [Nat.mul_add_mod, Nat.mod_eq_of_lt hy']

/-- C10 witness: the 2-by-1 board raises the out-of-range error under
`getAllFields` (and `getPenguins`), while the square 1-by-1 board
enumerates its single cell. -/
theorem c10_witness :
    (∃ x y, HexBoard.getAllFields ⟨[[.fish 1], [.fish 1]]⟩
        = .error (.indexError x y)
      ∧ (Board.mk ⟨[[.fish 1], [.fish 1]]⟩).getPenguins
        = .error (.indexError x y))
    ∧ HexBoard.getAllFields ⟨[[Field.fish 3]]⟩ = .ok [Field.fish 3] := by
  constructor
  · exact (c10_getAllFields_square_only ⟨[[.fish 1], [.fish 1]]⟩
      (by decide)).1 (by decide)
  · have h := (c10_getAllFields_square_only ⟨[[Field.fish 3]]⟩
      (by decide)).2 rfl
    rw [h.1]
    rfl

end Penguins

